import Mathlib

/-!
Verification of the lead-generation analysis backend.

This file gives a shallow embedding, in Lean 4, of the core analysis
pipeline of the repository:

* `app/services/analyzer.py`  — industry detection, fallback synthesis,
  completeness check and normalization of analysis records;
* `app/services/gemini_client.py` — the robust multi-strategy response
  parsing cascade (`_parse_analysis_response_robust`,
  `_clean_response_for_json`, `_validate_analysis_structure`,
  `_extract_from_structured_text`);
* `app/rag/knowledge_base.py` — `get_relevant_context` top-k retrieval;
* `app/rag/embeddings.py` — `find_most_similar` ranking;
* `app/api/bulk.py` — `process_bulk_analyses` per-URL failure isolation.

Python dictionaries with string keys are modelled as association lists of
`String × JValue`; Python / JSON values are modelled by the inductive type
`JValue`, with JSON numbers carried exactly as rationals.  External library
calls (the embedding model, the HTTP scraper, the LLM) are modelled as
oracle inputs; everything downstream of them is translated directly from
the source.
-/

namespace LeadGen

/-- JSON-like dynamic values (the Python values flowing through the
pipeline).  Numbers are carried as exact rationals. -/
inductive JValue where
  | jnull : JValue
  | jbool : Bool → JValue
  | jnum : ℚ → JValue
  | jstr : String → JValue
  | jarr : List JValue → JValue
  | jobj : List (String × JValue) → JValue
deriving Repr

/-- A Python dict with string keys: an association list (keys unique by
construction in all the code modelled here). -/
abbrev Dict := List (String × JValue)

/-- `d.get(k)` — first binding of `k`, if any. -/
def dictGet (d : Dict) (k : String) : Option JValue :=
  match d.find? (fun kv => kv.1 == k) with
  | some (_, v) => some v
  | none => none

/-- `k in d` — key membership. -/
def dictHas (d : Dict) (k : String) : Bool :=
  (dictGet d k).isSome

/-- `d[k] = v` — replace the first binding of `k` in place, else append
(CPython keeps the original insertion position on overwrite). -/
def dictSet (d : Dict) (k : String) (v : JValue) : Dict :=
  match d with
  | [] => [(k, v)]
  | (k', v') :: rest =>
      if k' == k then (k', v) :: rest else (k', v') :: dictSet rest k v

/-- Python truthiness of a `JValue` (`bool(x)`). -/
def truthy : JValue → Bool
  | .jnull => false
  | .jbool b => b
  | .jnum q => q != 0
  | .jstr s => s != ""
  | .jarr xs => !xs.isEmpty
  | .jobj kvs => !kvs.isEmpty

/-- The membership test `x in [None, '', [], {}]` used by the analyzer's
emptiness checks (`_is_analysis_complete`, `_normalize_analysis.ensure`). -/
def isEmptyVal : JValue → Bool
  | .jnull => true
  | .jstr s => s == ""
  | .jarr xs => xs.isEmpty
  | .jobj kvs => kvs.isEmpty
  | _ => false

/-! ## Character-level string helpers

Python string operations used by the source, modelled over `List Char`. -/

/-- `pat` is a prefix of `s` (character lists). -/
def hasPrefixL : List Char → List Char → Bool
  | [], _ => true
  | _ :: _, [] => false
  | a :: as, b :: bs => a == b && hasPrefixL as bs

/-- `pat in s` — substring occurrence (Python `in` on strings). -/
def containsSub (pat : List Char) : List Char → Bool
  | [] => pat.isEmpty
  | c :: rest => hasPrefixL pat (c :: rest) || containsSub pat rest

/-- Python `s.lower()` (ASCII-faithful). -/
def lowerStr (s : String) : String := ⟨s.data.map Char.toLower⟩

/-- Python `pat in s` on strings. -/
def strContains (s pat : String) : Bool := containsSub pat.data s.data

/-! ## `WebsiteAnalyzer._detect_industry` (app/services/analyzer.py) -/

/-- The static `industry_keywords` table of `_detect_industry`, in source
order (Python dicts iterate in insertion order). -/
def industry_keywords : List (String × List String) :=
  [ ("healthcare", ["medical", "health", "doctor", "patient", "clinic", "hospital", "pharmacy"]),
    ("finance", ["bank", "financial", "investment", "loan", "credit", "insurance", "trading"]),
    ("retail", ["shop", "store", "product", "sale", "discount", "cart", "checkout", "ecommerce"]),
    ("manufacturing", ["manufacturing", "factory", "production", "industrial", "machinery"]),
    ("education", ["school", "university", "course", "student", "learning", "education"]),
    ("real_estate", ["property", "real estate", "home", "house", "rent", "buy", "realtor"]),
    ("restaurant", ["restaurant", "food", "menu", "dining", "cafe", "delivery", "catering"]),
    ("legal", ["law", "legal", "attorney", "lawyer", "court", "legal services"]),
    ("technology", ["software", "tech", "IT", "development", "programming", "digital"]) ]

/-- `WebsiteAnalyzer._detect_industry`: lowercase the content, return the
first industry whose keyword list has a member occurring in the content,
else `None`. -/
def detect_industry (content : String) : Option String :=
  let low := lowerStr content
  (industry_keywords.find? (fun p => p.2.any (fun kw => strContains low kw))).map (·.1)

/-! ## Similarity ranking (app/rag/embeddings.py, app/rag/knowledge_base.py)

Both `EmbeddingService.find_most_similar` and
`KnowledgeBase.get_relevant_context` rank candidates with
`np.argsort(similarities)[-top_k:][::-1]`.  The cosine-similarity row
produced by the external embedding model is taken as input (`sims`, one
rational per candidate).  `np.argsort` is modelled by a stable ascending
sort of the index range; numpy's default introsort leaves tie order
unspecified (and is an insertion sort, hence stable, on small inputs), and
every ranking property proved below that involves ties is stated for the
stable model. -/

/-- Insert index `a` into `l` before the first index whose key is not
smaller (stable insertion step). -/
def insertIdx (key : Nat → ℚ) (a : Nat) : List Nat → List Nat
  | [] => [a]
  | b :: l => if key a ≤ key b then a :: b :: l else b :: insertIdx key a l

/-- Stable insertion sort of indices by ascending key. -/
def isortIdx (key : Nat → ℚ) : List Nat → List Nat
  | [] => []
  | a :: l => insertIdx key a (isortIdx key l)

/-- `np.argsort(sims)`: indices `0..n-1` sorted by ascending similarity. -/
def argsortAsc (sims : List ℚ) : List Nat :=
  isortIdx (fun i => sims.getD i 0) (List.range sims.length)

/-- Python slice `l[-top_k:]` for an arbitrary integer `top_k`: the last
`top_k` elements when `top_k > 0`; for `top_k ≤ 0` the slice start is the
non-negative index `-top_k` (in particular `l[-0:]` is all of `l`). -/
def sliceFromNegEnd (top_k : ℤ) (l : List Nat) : List Nat :=
  if 0 < top_k then l.drop (l.length - top_k.toNat) else l.drop (-top_k).toNat

/-- `np.argsort(sims)[-top_k:][::-1]` — the candidate indices ranked by
descending similarity. -/
def rankedIndices (sims : List ℚ) (top_k : ℤ) : List Nat :=
  (sliceFromNegEnd top_k (argsortAsc sims)).reverse

/-- `EmbeddingService.find_most_similar` (app/rag/embeddings.py): rank all
candidates and return `(index, score)` pairs. -/
def find_most_similar (sims : List ℚ) (top_k : ℤ) : List (Nat × ℚ) :=
  (rankedIndices sims top_k).map (fun i => (i, sims.getD i 0))

/-- One loaded knowledge-base item (`KnowledgeBase.knowledge_data` entry). -/
structure KItem where
  category : String
  content : String
  keywords : List String
  metadata : Option Dict
deriving Repr, Inhabited

/-- The context dict built for a selected item inside
`KnowledgeBase.get_relevant_context` (metadata included only if present). -/
def buildContextItem (it : KItem) (sim : ℚ) : Dict :=
  let base : Dict :=
    [("category", .jstr it.category), ("content", .jstr it.content),
     ("similarity", .jnum sim), ("keywords", .jarr (it.keywords.map .jstr))]
  match it.metadata with
  | some md => base ++ [("metadata", .jobj md)]
  | none => base

/-- The `similarity` field of a returned context item. -/
def simOfItem (d : Dict) : ℚ :=
  match dictGet d "similarity" with
  | some (.jnum q) => q
  | _ => 0

/-- `KnowledgeBase.get_relevant_context` (app/rag/knowledge_base.py):
return `[]` when no knowledge is loaded or no embeddings exist; otherwise
walk `np.argsort(sims)[-top_k:][::-1]` and keep the items whose similarity
is strictly above `threshold`.  `kd` is `knowledge_data`, `sims` the
cosine-similarity row of the query against the cached embeddings, `hasEmb`
whether `self.embeddings is not None`. -/
def get_relevant_context (kd : List KItem) (hasEmb : Bool) (sims : List ℚ)
    (top_k : ℤ) (threshold : ℚ) : List Dict :=
  if kd.isEmpty || !hasEmb then []
  else
    ((rankedIndices sims top_k).filter (fun i => threshold < sims.getD i 0)).map
      (fun i => buildContextItem (kd.getD i default) (sims.getD i 0))

/-- A sample knowledge item (the built-in default of
`KnowledgeBase._get_default_knowledge`, abridged). -/
def demoItem : KItem :=
  { category := "IT Services",
    content := "Common IT services include web development and cloud migration.",
    keywords := ["web development", "cloud"], metadata := none }

/-- A second sample knowledge item (an industry profile). -/
def demoItem2 : KItem :=
  { category := "Industry - Healthcare",
    content := "Industry: healthcare. Pain points: compliance.",
    keywords := ["healthcare"], metadata := none }

/-- A two-item corpus used in concrete counterexamples/witnesses. -/
def demoKD : List KItem := [demoItem, demoItem2]

/-- Concrete similarity row for `demoKD` (0.9 and 0.8). -/
def demoSims : List ℚ := [mkRat 9 10, mkRat 4 5]

/-! ## A model of `json.loads`

`GeminiClient` feeds candidate substrings to `json.loads`.  The decoder
below follows the JSON grammar as Python's `json` module accepts it
(leading/trailing JSON whitespace, objects with last-duplicate-wins keys
kept at their first position, standard escapes).  Two documented
simplifications: the non-standard `NaN`/`Infinity` extensions and
surrogate `\uXXXX` escapes are rejected (none of the claims touched here
depend on them).  Recursion is fueled by the input length. -/

/-- JSON insignificant whitespace (space, tab, newline, carriage return). -/
def isJsonWs (c : Char) : Bool :=
  c == ' ' || c == '\t' || c == '\n' || c == '\r'

/-- Skip JSON whitespace. -/
def jws (cs : List Char) : List Char := cs.dropWhile isJsonWs

/-- Single-character JSON escapes. -/
def escMap : Char → Option Char
  | '"' => some '"'
  | '\\' => some '\\'
  | '/' => some '/'
  | 'b' => some (Char.ofNat 8)
  | 'f' => some (Char.ofNat 12)
  | 'n' => some (Char.ofNat 10)
  | 'r' => some (Char.ofNat 13)
  | 't' => some (Char.ofNat 9)
  | _ => none

/-- Hexadecimal digit value. -/
def hexVal (c : Char) : Option Nat :=
  let n := c.toNat
  if 48 ≤ n && n ≤ 57 then some (n - 48)
  else if 97 ≤ n && n ≤ 102 then some (n - 87)
  else if 65 ≤ n && n ≤ 70 then some (n - 55)
  else none

/-- Scan a JSON string body (after the opening quote); returns the decoded
content and the remainder after the closing quote. -/
def scanJStr : Nat → List Char → Option (List Char × List Char)
  | 0, _ => none
  | fuel + 1, cs =>
    match cs with
    | [] => none
    | '"' :: rest => some ([], rest)
    | '\\' :: 'u' :: h1 :: h2 :: h3 :: h4 :: rest =>
      match hexVal h1, hexVal h2, hexVal h3, hexVal h4 with
      | some a, some b, some c, some d =>
        let n := ((a * 16 + b) * 16 + c) * 16 + d
        if h : n.isValidChar then
          (scanJStr fuel rest).map (fun p => (Char.ofNatAux n h :: p.1, p.2))
        else none
      | _, _, _, _ => none
    | '\\' :: e :: rest =>
      match escMap e with
      | some c => (scanJStr fuel rest).map (fun p => (c :: p.1, p.2))
      | none => none
    | c :: rest =>
      if c.toNat < 32 then none
      else (scanJStr fuel rest).map (fun p => (c :: p.1, p.2))

/-- Leading decimal digits and the rest. -/
def scanDigits (cs : List Char) : List Char × List Char :=
  (cs.takeWhile Char.isDigit, cs.dropWhile Char.isDigit)

/-- Digit characters to a natural number. -/
def digitsToNat (cs : List Char) : Nat :=
  cs.foldl (fun n c => n * 10 + (c.toNat - 48)) 0

/-- Exact rational value of a JSON number
`sign ip . fp e esign ex`. -/
def jnumVal (neg : Bool) (ip fp : List Char) (eneg : Bool) (ex : List Char) : ℚ :=
  let m : Nat := digitsToNat (ip ++ fp)
  let signed : Int := if neg then -(m : Int) else (m : Int)
  let e : Nat := digitsToNat ex
  if eneg then mkRat signed (10 ^ (fp.length + e))
  else mkRat (signed * Int.ofNat (10 ^ e)) (10 ^ fp.length)

/-- Scan a JSON number token. -/
def scanJNum (cs : List Char) : Option (ℚ × List Char) :=
  let p := match cs with
    | '-' :: t => (true, t)
    | _ => (false, cs)
  let neg := p.1
  let (ip, cs2) := scanDigits p.2
  if ip.isEmpty then none
  else if ip.length > 1 && ip.head? == some '0' then none
  else
    let q := match cs2 with
      | '.' :: t =>
        let (fp, r) := scanDigits t
        if fp.isEmpty then none else some (fp, r)
      | _ => some ([], cs2)
    match q with
    | none => none
    | some (fp, cs3) =>
      match cs3 with
      | 'e' :: t | 'E' :: t =>
        let ep := match t with
          | '+' :: u => (false, u)
          | '-' :: u => (true, u)
          | _ => (false, t)
        let (ex, r) := scanDigits ep.2
        if ex.isEmpty then none
        else some (jnumVal neg ip fp ep.1 ex, r)
      | _ => some (jnumVal neg ip fp false [], cs3)

mutual

/-- Parse one JSON value at the head of `cs` (whitespace already
skipped). -/
def parseJV : Nat → List Char → Option (JValue × List Char)
  | 0, _ => none
  | fuel + 1, cs =>
    match cs with
    | [] => none
    | c :: rest =>
      if c == '\x7b' then
        match jws rest with
        | '\x7d' :: r => some (.jobj [], r)
        | cs' => parseMembers fuel cs' []
      else if c == '[' then
        match jws rest with
        | ']' :: r => some (.jarr [], r)
        | cs' => parseElems fuel cs' []
      else if c == '"' then
        (scanJStr rest.length rest).map (fun p => (.jstr ⟨p.1⟩, p.2))
      else if hasPrefixL "true".data cs then some (.jbool true, cs.drop 4)
      else if hasPrefixL "false".data cs then some (.jbool false, cs.drop 5)
      else if hasPrefixL "null".data cs then some (.jnull, cs.drop 4)
      else (scanJNum cs).map (fun p => (.jnum p.1, p.2))

/-- Parse the members of a JSON object (after `{` and whitespace, at least
one member present).  Duplicate keys: last value wins, at the first
occurrence's position, as in CPython dicts. -/
def parseMembers : Nat → List Char → Dict → Option (JValue × List Char)
  | 0, _, _ => none
  | fuel + 1, cs, acc =>
    match cs with
    | '"' :: rest =>
      match scanJStr rest.length rest with
      | none => none
      | some (k, r1) =>
        match jws r1 with
        | ':' :: r2 =>
          match parseJV fuel (jws r2) with
          | none => none
          | some (v, r3) =>
            let acc' := dictSet acc ⟨k⟩ v
            match jws r3 with
            | ',' :: r4 => parseMembers fuel (jws r4) acc'
            | '\x7d' :: r4 => some (.jobj acc', r4)
            | _ => none
        | _ => none
    | _ => none

/-- Parse the elements of a JSON array (after `[` and whitespace, at least
one element present). -/
def parseElems : Nat → List Char → List JValue → Option (JValue × List Char)
  | 0, _, _ => none
  | fuel + 1, cs, acc =>
    match parseJV fuel cs with
    | none => none
    | some (v, r) =>
      match jws r with
      | ',' :: r2 => parseElems fuel (jws r2) (acc ++ [v])
      | ']' :: r2 => some (.jarr (acc ++ [v]), r2)
      | _ => none

end

/-- `json.loads`: parse a complete JSON document (whole string consumed up
to trailing whitespace); `none` models a raised `JSONDecodeError`. -/
def jsonDecode (s : String) : Option JValue :=
  match parseJV (s.length + 1) (jws s.data) with
  | some (v, rest) => if (jws rest).isEmpty then some v else none
  | none => none

/-! ## `GeminiClient._clean_response_for_json` and the regex strategies
(app/services/gemini_client.py)

Each regex used by the source is a fixed pattern whose backtracking is
deterministic, so it is modelled by a dedicated scanner with the same
match semantics (leftmost match, greedy/lazy exactly as the pattern
dictates, non-overlapping successive matches for `findall`). -/

/-- Python regex `\s` on ASCII (space, tab, newline, CR, VT, FF). -/
def isPySpace (c : Char) : Bool :=
  c == ' ' || c == '\t' || c == '\n' || c == '\r' || c == '\x0b' || c == '\x0c'

/-- Case-insensitive character equality (ASCII). -/
def chEqCI (a b : Char) : Bool := a.toLower == b.toLower

/-- Case-insensitive prefix test. -/
def hasPrefixCI : List Char → List Char → Bool
  | [], _ => true
  | _ :: _, [] => false
  | a :: as, b :: bs => chEqCI a b && hasPrefixCI as bs

/-- `re.sub(marker + r'\s*', '', text)` for a literal marker: delete every
occurrence of the marker together with the whitespace run following it,
scanning left to right (case-insensitively when `ci`). -/
def subMarker (marker : List Char) (ci : Bool) : Nat → List Char → List Char
  | 0, cs => cs
  | fuel + 1, cs =>
    match cs with
    | [] => []
    | c :: rest =>
      if (if ci then hasPrefixCI marker cs else hasPrefixL marker cs) then
        subMarker marker ci fuel ((cs.drop marker.length).dropWhile isPySpace)
      else
        c :: subMarker marker ci fuel rest

/-- Python `str.strip()` on a character list. -/
def pyStripL (cs : List Char) : List Char :=
  ((cs.dropWhile isPySpace).reverse.dropWhile isPySpace).reverse

/-- Python `str.strip()` (whitespace at both ends). -/
def pyStrip (s : String) : String := ⟨pyStripL s.data⟩

/-- Python `str.strip(chars)`: remove any run of the given characters from
both ends. -/
def stripChars (chars : List Char) (s : String) : String :=
  ⟨((s.data.dropWhile (chars.contains ·)).reverse.dropWhile (chars.contains ·)).reverse⟩

/-- Python `str.split(c)` for a single separator character. -/
def splitOnChar (c : Char) : List Char → List (List Char)
  | [] => [[]]
  | x :: rest =>
    let r := splitOnChar c rest
    if x == c then [] :: r
    else
      match r with
      | h :: t => (x :: h) :: t
      | [] => [[x]]

/-- `'\n'.join(lines)` (over character lists). -/
def joinWithChar (c : Char) : List (List Char) → List Char
  | [] => []
  | [l] => l
  | l :: ls => l ++ c :: joinWithChar c ls

/-- Index of the last element satisfying `p`. -/
def findLastIdx (p : α → Bool) (l : List α) : Option Nat :=
  match l.reverse.findIdx? p with
  | some j => some (l.length - 1 - j)
  | none => none

/-- `GeminiClient._clean_response_for_json`: delete code-fence markers,
then keep the lines from the first line whose stripped form starts with
`{` to the last line whose stripped form ends with `}` (indices default
to 0 and `len(lines)` when no such line exists), and strip. -/
def clean_response_for_json (text : String) : String :=
  let t1 := subMarker "```json".data true text.data.length text.data
  let t2 := subMarker "```".data false t1.length t1
  let lines := splitOnChar '\n' t2
  let start_idx := (lines.findIdx? (fun l =>
    match pyStripL l with
    | '\x7b' :: _ => true
    | _ => false)).getD 0
  let end_idx := (findLastIdx (fun l =>
    match (pyStripL l).reverse with
    | '\x7d' :: _ => true
    | _ => false) lines).map (· + 1) |>.getD lines.length
  ⟨pyStripL (joinWithChar '\n' ((lines.drop start_idx).take (end_idx - start_idx)))⟩

/-- Star body of `r'(\{(?:[^{}]|{[^{}]*})*\})'`: consume the maximal
sequence of items (a non-brace character, or a depth-1 block
`{[^{}]*}`); every backtracking choice of this pattern is forced, so the
greedy scan is exact.  Returns consumed characters and the remainder. -/
def p3Body : Nat → List Char → List Char × List Char
  | 0, cs => ([], cs)
  | fuel + 1, cs =>
    match cs with
    | [] => ([], [])
    | '\x7b' :: rest =>
      let inner := rest.takeWhile (fun c => c != '\x7b' && c != '\x7d')
      match rest.drop inner.length with
      | '\x7d' :: rest' =>
        let p := p3Body fuel rest'
        ('\x7b' :: (inner ++ '\x7d' :: p.1), p.2)
      | _ => ([], cs)
    | '\x7d' :: _ => ([], cs)
    | c :: rest =>
      let p := p3Body fuel rest
      (c :: p.1, p.2)

/-- Match `r'(\{(?:[^{}]|{[^{}]*})*\})'` anchored at `cs`. -/
def p3MatchAt (cs : List Char) : Option (String × List Char) :=
  match cs with
  | '\x7b' :: rest =>
    let p := p3Body rest.length rest
    match p.2 with
    | '\x7d' :: r' => some (⟨'\x7b' :: (p.1 ++ ['\x7d'])⟩, r')
    | _ => none
  | _ => none

/-- `re.findall` for the generic brace pattern: leftmost non-overlapping
matches. -/
def p3FindAll : Nat → List Char → List String
  | 0, _ => []
  | fuel + 1, cs =>
    match cs with
    | [] => []
    | c :: rest =>
      match p3MatchAt (c :: rest) with
      | some (m, r) => m :: p3FindAll fuel r
      | none => p3FindAll fuel rest

/-- After a candidate closing `}` of the lazy group: `\s*` then the
closing fence. -/
def fencedTailOk (cs : List Char) : Option (List Char) :=
  let r := cs.dropWhile isPySpace
  if hasPrefixL "```".data r then some (r.drop 3) else none

/-- Lazy `.*?\}` of `r'```(json)?\s*(\{.*?\})\s*```'` (DOTALL): accept the
earliest `}` whose tail completes the fence. -/
def fencedLazy : Nat → List Char → List Char → Option (List Char × List Char)
  | 0, _, _ => none
  | fuel + 1, acc, cs =>
    match cs with
    | [] => none
    | '\x7d' :: rest =>
      match fencedTailOk rest with
      | some r => some (acc.reverse ++ ['\x7d'], r)
      | none => fencedLazy fuel ('\x7d' :: acc) rest
    | c :: rest => fencedLazy fuel (c :: acc) rest

/-- Match a fenced pattern (`marker` is ` ```json ` or ` ``` `) anchored at
`cs`; returns the captured group and the remainder after the match. -/
def fencedMatchAt (marker : List Char) (cs : List Char) : Option (String × List Char) :=
  if hasPrefixL marker cs then
    match (cs.drop marker.length).dropWhile isPySpace with
    | '\x7b' :: rest =>
      (fencedLazy rest.length [] rest).map (fun p => (⟨'\x7b' :: p.1⟩, p.2))
    | _ => none
  else none

/-- `re.findall` for a fenced pattern. -/
def fencedFindAll (marker : List Char) : Nat → List Char → List String
  | 0, _ => []
  | fuel + 1, cs =>
    match cs with
    | [] => []
    | c :: rest =>
      match fencedMatchAt marker (c :: rest) with
      | some (m, r) => m :: fencedFindAll marker fuel r
      | none => fencedFindAll marker fuel rest

/-! ## `GeminiClient._validate_analysis_structure` -/

/-- The required keys of `_validate_analysis_structure`. -/
def required_fields : List String :=
  ["company_name", "industry", "business_purpose", "pain_points", "recommendations"]

/-- `isinstance(v, list)`. -/
def isArrVal : JValue → Bool
  | .jarr _ => true
  | _ => false

/-- `isinstance(v, str)`. -/
def isStrVal : JValue → Bool
  | .jstr _ => true
  | _ => false

/-- `GeminiClient._validate_analysis_structure` on an arbitrary
`json.loads` result.  `.error ()` models a raised exception: `.strip()`
on a non-string `company_name` (AttributeError), `.get` on a non-dict
after the membership test passed (AttributeError), or `in` on a
number/bool/None (TypeError). -/
def validate_analysis_structure : JValue → Except Unit Bool
  | .jobj kvs =>
    if !(required_fields.all (fun f => dictHas kvs f)) then .ok false
    else if !(isArrVal ((dictGet kvs "pain_points").getD .jnull)) then .ok false
    else if !(isArrVal ((dictGet kvs "recommendations").getD .jnull)) then .ok false
    else
      match dictGet kvs "company_name" with
      | some (.jstr _) => .ok true
      | some _ => .error ()
      | none => .ok true
  | .jarr xs =>
    if required_fields.all
        (fun f => xs.any (fun v => match v with | .jstr s => s == f | _ => false)) then
      .error ()
    else .ok false
  | .jstr s =>
    if required_fields.all (fun f => strContains s f) then .error () else .ok false
  | _ => .error ()

/-- The `digital_maturity_score` pattern literals. -/
def dmScoreLits : List (List Char) := ["digital".data, "maturity".data, "score".data]

/-- The `urgency_score` pattern literals. -/
def urgScoreLits : List (List Char) := ["urgency".data, "score".data]

/-! ## `GeminiClient._extract_from_structured_text` -/

/-- The default record of `_extract_from_structured_text`, in source
order. -/
def analysisDefaults : Dict :=
  [("company_name", .jstr "Unknown"),
   ("industry", .jstr "Unknown"),
   ("business_purpose", .jstr "Could not determine from analysis"),
   ("company_size", .jstr "unknown"),
   ("technologies", .jarr []),
   ("contact_info", .jobj []),
   ("pain_points", .jarr [.jstr "Analysis parsing incomplete"]),
   ("recommendations", .jarr [.jstr "Retry analysis with better prompt"]),
   ("digital_maturity_score", .jnum 5),
   ("urgency_score", .jnum 5),
   ("potential_value", .jstr "To be determined"),
   ("outreach_strategy", .jstr "Follow up for more information"),
   ("parsing_note", .jstr "Extracted from unstructured response")]

/-- `[_\s]` of the extraction patterns. -/
def isUnderOrSpace (c : Char) : Bool := c == '_' || isPySpace c

/-- `[:\s]` of the extraction patterns. -/
def isColonOrSpace (c : Char) : Bool := c == ':' || isPySpace c

/-- Match a chain of case-insensitive literals separated by `[_\s]*` runs
(anchored); returns the remainder.  Literal characters are letters and
the separator class is disjoint from them, so the greedy runs are
exact. -/
def litChainAt : List (List Char) → List Char → Option (List Char)
  | [], cs => some cs
  | lit :: lits, cs =>
    if hasPrefixCI lit cs then
      match lits with
      | [] => some (cs.drop lit.length)
      | _ :: _ => litChainAt lits ((cs.drop lit.length).dropWhile isUnderOrSpace)
    else none

/-- The rightmost capturable character of the greedy `[:\s]*` run, used
when the regex backtracks one step to feed `([^...]+)` at least one
character. -/
def lastCapturable (excl : List Char) (run : List Char) : Option String :=
  match run.reverse.find? (fun x => !(excl.contains x)) with
  | some c => some ⟨[c]⟩
  | none => none

/-- `[:\s]*([^excl]+)` anchored at `cs` (greedy run, group of at least one
character outside `excl`, with the forced one-step backtrack when the
character after the run is excluded or absent). -/
def captureAfterColon (excl : List Char) (cs : List Char) : Option String :=
  let run := cs.takeWhile isColonOrSpace
  let rest := cs.drop run.length
  match rest with
  | c :: _ =>
    if excl.contains c then lastCapturable excl run
    else some ⟨rest.takeWhile (fun x => !(excl.contains x))⟩
  | [] => lastCapturable excl run

/-- `re.search` for one field pattern
`lit1[_\s]*...[_\s]*litn[:\s]*([^excl]+)` (IGNORECASE): leftmost start
position that matches. -/
def searchFieldPat (lits : List (List Char)) (excl : List Char) :
    Nat → List Char → Option String
  | 0, _ => none
  | fuel + 1, cs =>
    match cs with
    | [] => none
    | c :: rest =>
      match (litChainAt lits (c :: rest)).bind (captureAfterColon excl) with
      | some v => some v
      | none => searchFieldPat lits excl fuel rest

/-- `value.strip().strip('"').strip("'")`. -/
def pyCleanVal (s : String) : String :=
  stripChars ['\''] (stripChars ['"'] (pyStrip s))

/-- The loop over one field's extraction patterns: first pattern whose
cleaned value is non-empty and not a placeholder wins. -/
def extractField (pats : List (List (List Char) × List Char)) (text : List Char) :
    Option String :=
  match pats with
  | [] => none
  | (lits, excl) :: ps =>
    match searchFieldPat lits excl text.length text with
    | some raw =>
      let v := pyCleanVal raw
      if v != "" && v != "Unknown" && v != "N/A" && v != "-" then some v
      else extractField ps text
    | none => extractField ps text

/-- Characters excluded from field captures (`[^\n,}]`). -/
def exclField : List Char := ['\n', ',', '\x7d']

/-- Characters excluded from the purpose captures (`[^\n}]`). -/
def exclPurpose : List Char := ['\n', '\x7d']

/-- The `company_name` extraction patterns. -/
def companyNamePats : List (List (List Char) × List Char) :=
  [(["company".data, "name".data], exclField),
   (["business".data, "name".data], exclField),
   (["organization".data], exclField)]

/-- The `industry` extraction patterns. -/
def industryPats : List (List (List Char) × List Char) :=
  [(["industry".data], exclField),
   (["sector".data], exclField),
   (["business".data, "type".data], exclField)]

/-- The `business_purpose` extraction patterns. -/
def purposePats : List (List (List Char) × List Char) :=
  [(["business".data, "purpose".data], exclPurpose),
   (["what".data, "company".data, "does".data], exclPurpose),
   (["description".data], exclPurpose)]

/-- Match `lits` chain, optional `s`, `[:\s]*`, `\[`, lazy group up to the
first `]` (anchored): the bracketed-list patterns. -/
def listPatAt (lits : List (List Char)) (cs : List Char) : Option String :=
  (litChainAt lits cs).bind fun r =>
    let r1 := match r with
      | x :: xs => if x == 's' || x == 'S' then xs else x :: xs
      | [] => []
    match r1.dropWhile isColonOrSpace with
    | '[' :: rest =>
      let content := rest.takeWhile (fun x => x != ']')
      if (rest.drop content.length).isEmpty then none else some ⟨content⟩
    | _ => none

/-- `re.search` for a bracketed-list pattern. -/
def searchListPat (lits : List (List Char)) : Nat → List Char → Option String
  | 0, _ => none
  | fuel + 1, cs =>
    match cs with
    | [] => none
    | c :: rest =>
      match listPatAt lits (c :: rest) with
      | some v => some v
      | none => searchListPat lits fuel rest

/-- Comma-split fallback for a bracketed list (strip, drop empties). -/
def commaVals (g : String) : List String :=
  (splitOnChar ',' g.data).filterMap
    (fun it => if pyStripL it != [] then some (pyCleanVal ⟨it⟩) else none)

/-- Value extraction for a bracketed list: `json.loads('[' + g + ']')`
when it yields an array of strings (a non-string item raises
AttributeError at `.strip()`, caught by the bare `except`), else
comma-split. -/
def listValues (g : String) : List String :=
  match jsonDecode ("[" ++ g ++ "]") with
  | some (.jarr items) =>
    if items.all isStrVal then
      items.filterMap (fun it =>
        match it with
        | .jstr s => if pyStrip s != "" then some (pyCleanVal s) else none
        | _ => none)
    else commaVals g
  | _ => commaVals g

/-- `[0-9.]`. -/
def isScoreChar (c : Char) : Bool := c.isDigit || c == '.'

/-- Match a score pattern `lits[:\s]*([0-9.]+)` (anchored; the capture
class is disjoint from `[:\s]`, so the greedy runs are exact). -/
def scorePatAt (lits : List (List Char)) (cs : List Char) : Option String :=
  (litChainAt lits cs).bind fun r =>
    let cap := (r.dropWhile isColonOrSpace).takeWhile isScoreChar
    if cap.isEmpty then none else some ⟨cap⟩

/-- `re.search` for a score pattern. -/
def searchScorePat (lits : List (List Char)) : Nat → List Char → Option String
  | 0, _ => none
  | fuel + 1, cs =>
    match cs with
    | [] => none
    | c :: rest =>
      match scorePatAt lits (c :: rest) with
      | some v => some v
      | none => searchScorePat lits fuel rest

/-- Python `float()` on a string of digits and dots: defined iff it has at
least one digit and at most one dot. -/
def pyFloatDigitsDot (s : String) : Option ℚ :=
  let cs := s.data
  if cs.any Char.isDigit && (cs.filter (fun c => c == '.')).length ≤ 1 then
    let ip := cs.takeWhile (fun c => c != '.')
    let rest := cs.drop ip.length
    let fp := match rest with
      | _ :: t => t
      | [] => []
    some (mkRat (Int.ofNat (digitsToNat (ip ++ fp))) (10 ^ fp.length))
  else none

/-- The field- and list-extraction phase of
`_extract_from_structured_text`: overwrite
`company_name`/`industry`/`business_purpose` from the label patterns and
the two lists from the bracketed-list patterns, starting from the default
record. -/
def extractTextFields (text : String) : Dict :=
  let cs := text.data
  let d1 := match extractField companyNamePats cs with
    | some v => dictSet analysisDefaults "company_name" (.jstr v)
    | none => analysisDefaults
  let d2 := match extractField industryPats cs with
    | some v => dictSet d1 "industry" (.jstr v)
    | none => d1
  let d3 := match extractField purposePats cs with
    | some v => dictSet d2 "business_purpose" (.jstr v)
    | none => d2
  let d4 := match searchListPat ["pain".data, "point".data] cs.length cs with
    | some g => dictSet d3 "pain_points" (.jarr ((listValues g).map .jstr))
    | none => d3
  match searchListPat ["recommendation".data] cs.length cs with
  | some g => dictSet d4 "recommendations" (.jarr ((listValues g).map .jstr))
  | none => d4

/-- One score-extraction step of `_extract_from_structured_text`:
overwrite `key` when the pattern matches, the capture parses as a float,
and the value lies in [1, 10]. -/
def scoreStep (lits : List (List Char)) (key : String) (text : String) (d : Dict) : Dict :=
  match (searchScorePat lits text.data.length text.data).bind pyFloatDigitsDot with
  | some v => if 1 ≤ v ∧ v ≤ 10 then dictSet d key (.jnum v) else d
  | none => d

/-- The local `result` dict that `_extract_from_structured_text` builds:
the field/list phase, then the two score steps. -/
def extractResultDict (text : String) : Dict :=
  scoreStep urgScoreLits "urgency_score" text
    (scoreStep dmScoreLits "digital_maturity_score" text (extractTextFields text))

/-- `GeminiClient._extract_from_structured_text`: the function builds its
local `result` dict but the staged source ends at a bare `logger`
expression (gemini_client.py:497) with **no** `return` statement — the
stranded `logger.info(f"Extracted structured data: ...")` / `return
result` lines sit at gemini_client.py:31–32, inside
`analyze_website_content`'s `except` — so the Python function falls off
its end and returns `None`.  No statement of the body can raise (every
fallible step is wrapped), so the return value is always `None`. -/
def extract_from_structured_text (text : String) : Option Dict :=
  let _result := extractResultDict text
  none

/-! ## `GeminiClient._parse_analysis_response_robust` -/

/-- Walk the candidate JSON substrings of strategies 1–2: `.inl (some p)`
when a candidate parses and validates; `.inl none` when all candidates
were tried without success; `.inr ()` when validation raised (the outer
`except Exception` then skips straight to the structured-text
fallback). -/
def tryCandidates : List String → (Option JValue) ⊕ Unit
  | [] => .inl none
  | m :: ms =>
    match jsonDecode m with
    | none => tryCandidates ms
    | some p =>
      match validate_analysis_structure p with
      | .ok true => .inl (some p)
      | .ok false => tryCandidates ms
      | .error _ => .inr ()

/-- `GeminiClient._parse_analysis_response_robust`: clean the text, try the
three regex patterns' candidates in order, then the whole cleaned text,
and fall back to structured-text extraction on failure or exception.
Because `_extract_from_structured_text` returns `None` (missing return),
every fallback path yields `none`: the parser returns a validated object
or `None`. -/
def parse_analysis_response_robust (text : String) : Option JValue :=
  let cleaned := clean_response_for_json text
  let cands :=
    fencedFindAll "```json".data cleaned.data.length cleaned.data ++
    fencedFindAll "```".data cleaned.data.length cleaned.data ++
    p3FindAll cleaned.data.length cleaned.data
  match tryCandidates cands with
  | .inl (some v) => some v
  | .inr _ => (extract_from_structured_text text).map .jobj
  | .inl none =>
    match jsonDecode cleaned with
    | some p =>
      match validate_analysis_structure p with
      | .ok true => some p
      | _ => (extract_from_structured_text text).map .jobj
    | none => (extract_from_structured_text text).map .jobj

/-- The dict underlying a parsed analysis (the parser in fact always
returns an object — see the totality lemma). -/
def asDict : JValue → Dict
  | .jobj kvs => kvs
  | _ => []

/-! ## `WebsiteAnalyzer` (app/services/analyzer.py)

`ScrapeResult` and the RAG-analysis record are typed per the shapes
produced by `WebScraper.scrape_website` and
`WebsiteAnalyzer._perform_rag_analysis`. -/

/-- A successful scrape (`WebScraper.scrape_website` without error):
string fields, detected technologies and contact info.  `page_title` is
read by the analyzer with `.get` though the scraper never writes it. -/
structure Scraped where
  url : Option String := none
  title : Option String := none
  page_title : Option String := none
  description : Option String := none
  content : Option String := none
  technologies : List String := []
  contact_info : Dict := []
deriving Repr, Inhabited

/-- The RAG-analysis record built by `_perform_rag_analysis`: context
items are knowledge-base dicts; `detected_industry` is
`_detect_industry`'s result. -/
structure Rag where
  general_context : List Dict := []
  technology_context : List Dict := []
  industry_context : List Dict := []
  detected_industry : Option String := none
deriving Repr, Inhabited

/-- Python `a or b` over optional strings (`None` and `''` are falsy). -/
def orStrOpt (a b : Option String) : Option String :=
  match a with
  | some s => if s != "" then some s else b
  | none => b

/-- Python `a or dflt` landing on a string default. -/
def pyOrStr (a : Option String) (dflt : String) : String :=
  match a with
  | some s => if s != "" then s else dflt
  | none => dflt

/-- `title.split('-')[0].strip() if title else 'N/A'` over the
`title or page_title or ''` chain. -/
def companyGuess (s : Scraped) : String :=
  let title := (orStrOpt s.title s.page_title).getD ""
  if title != "" then pyStrip ⟨(splitOnChar '-' title.data).headD []⟩ else "N/A"

/-- `ctx.get('metadata', {}).get(key)` when it is a list (the analyzer's
`isinstance(..., list)` / truthiness guards read these); `none`
otherwise.  Knowledge-base items always carry dict metadata. -/
def metaListField (ctx : Dict) (key : String) : Option (List JValue) :=
  match dictGet ctx "metadata" with
  | some (.jobj md) =>
    match dictGet md key with
    | some (.jarr xs) => some xs
    | _ => none
  | _ => none

/-- The required-and-non-empty fields of
`WebsiteAnalyzer._is_analysis_complete`. -/
def analyzer_required_fields : List String :=
  ["company_name", "industry", "business_purpose", "pain_points", "recommendations",
   "digital_maturity_score", "urgency_score"]

/-- Key `k` is present in `d` with a non-empty value (`field in analysis`
and `analysis.get(field) not in [None,'',[],{}]`). -/
def filledKey (d : Dict) (k : String) : Bool :=
  match dictGet d k with
  | some v => !(isEmptyVal v)
  | none => false

/-- `WebsiteAnalyzer._is_analysis_complete`. -/
def is_analysis_complete (analysis : Dict) : Bool :=
  analyzer_required_fields.all (fun f => filledKey analysis f)

/-- `WebsiteAnalyzer._generate_fallback_analysis`: deterministic record
from scrape + RAG context when the LLM result is missing/incomplete. -/
def generate_fallback_analysis (s : Scraped) (rag : Rag) : Dict :=
  let company_guess := companyGuess s
  let detected_industry := pyOrStr rag.detected_industry "Unknown"
  let pain_points0 := rag.industry_context.foldl (fun acc ctx =>
    match metaListField ctx "pain_points" with
    | some xs => acc ++ xs.take 3
    | none => acc) []
  let pain_points := if pain_points0.isEmpty then
      [JValue.jstr "Limited online presence",
       JValue.jstr "Performance optimization needed",
       JValue.jstr "Missing analytics-driven decision making"]
    else pain_points0
  let recommendations0 := rag.technology_context.foldl (fun acc ctx =>
    match metaListField ctx "opportunities" with
    | some xs => acc ++ xs.take 3
    | none => acc) []
  let recommendations := if recommendations0.isEmpty then
      [JValue.jstr "Improve website performance and SEO",
       JValue.jstr "Implement analytics and conversion tracking",
       JValue.jstr "Modernize tech stack where feasible"]
    else recommendations0
  [("company_name", .jstr (if company_guess != "" then company_guess else "N/A")),
   ("industry", .jstr (if detected_industry != "" then detected_industry else "Unknown")),
   ("business_purpose", .jstr (pyOrStr
     (orStrOpt s.description (some ⟨(s.content.getD "").data.take 160⟩)) "N/A")),
   ("company_size", .jstr "unknown"),
   ("technologies", .jarr (s.technologies.map .jstr)),
   ("contact_info", .jobj s.contact_info),
   ("pain_points", .jarr pain_points),
   ("recommendations", .jarr recommendations),
   ("digital_maturity_score", .jnum 5),
   ("urgency_score", .jnum 5),
   ("potential_value", .jstr "To be determined"),
   ("outreach_strategy", .jstr "Introduce value with quick wins and an assessment call")]

/-- The analyzer's local `ensure(key, default)`: fill the key when absent
or empty. -/
def ensureKey (d : Dict) (k : String) (dflt : JValue) : Dict :=
  if isEmptyVal ((dictGet d k).getD .jnull) then dictSet d k dflt else d

/-- `WebsiteAnalyzer._normalize_analysis`: fill every required field with
its deterministic default when absent/empty (the `or {}` on contact info
coincides with the typed field). -/
def normalize_analysis (analysis : Dict) (s : Scraped) (rag : Rag) : Dict :=
  let d1 := ensureKey analysis "company_name" (.jstr (companyGuess s))
  let d2 := ensureKey d1 "industry" (.jstr (pyOrStr rag.detected_industry "Unknown"))
  let d3 := ensureKey d2 "digital_maturity_score" (.jnum 5)
  let d4 := ensureKey d3 "urgency_score" (.jnum 5)
  let d5 := ensureKey d4 "business_purpose" (.jstr (pyOrStr
    (orStrOpt s.description (some ⟨(s.content.getD "").data.take 160⟩)) "N/A"))
  let d6 := ensureKey d5 "company_size" (.jstr "unknown")
  let d7 := if !(truthy ((dictGet d6 "technologies").getD .jnull)) then
      dictSet d6 "technologies" (.jarr (s.technologies.map .jstr))
    else d6
  let d8 := ensureKey d7 "contact_info" (.jobj s.contact_info)
  let d9 := ensureKey d8 "pain_points"
    (.jarr [.jstr "Limited online presence", .jstr "Performance optimization needed"])
  ensureKey d9 "recommendations"
    (.jarr [.jstr "Improve website performance and SEO", .jstr "Implement analytics and tracking"])

mutual

/-- Structural equality of dynamic values (used only to model Python's
`set` deduplication over the — in practice string — service lists). -/
def jvalBeq : JValue → JValue → Bool
  | .jnull, .jnull => true
  | .jbool a, .jbool b => a == b
  | .jnum a, .jnum b => a == b
  | .jstr a, .jstr b => a == b
  | .jarr xs, .jarr ys => jvalBeqList xs ys
  | .jobj xs, .jobj ys => jvalBeqObj xs ys
  | _, _ => false

/-- Elementwise equality of value lists. -/
def jvalBeqList : List JValue → List JValue → Bool
  | [], [] => true
  | a :: as, b :: bs => jvalBeq a b && jvalBeqList as bs
  | _, _ => false

/-- Pairwise equality of key/value lists. -/
def jvalBeqObj : List (String × JValue) → List (String × JValue) → Bool
  | [], [] => true
  | (k, a) :: as, (k', b) :: bs => k == k' && jvalBeq a b && jvalBeqObj as bs
  | _, _ => false

end

/-- `list(set(l))` modelled with first-occurrence order (CPython's set
iteration order is unspecified; nothing proved here depends on it). -/
def pyDedup (l : List JValue) : List JValue :=
  l.foldl (fun acc x => if acc.any (jvalBeq x) then acc else acc ++ [x]) []

/-- `WebsiteAnalyzer._extract_relevant_services`. -/
def extract_relevant_services (rag : Rag) : List JValue :=
  let s1 := rag.general_context.foldl (fun acc ctx =>
    match metaListField ctx "solutions" with
    | some (x :: xs) => acc ++ (x :: xs).take 2
    | _ => acc) []
  let s2 := rag.industry_context.foldl (fun acc ctx =>
    match metaListField ctx "high_value_services" with
    | some (x :: xs) => acc ++ (x :: xs).take 2
    | _ => acc) s1
  (pyDedup s2).take 5

/-- `WebsiteAnalyzer._extract_tech_opportunities`. -/
def extract_tech_opportunities (rag : Rag) : List JValue :=
  let s1 := rag.technology_context.foldl (fun acc ctx =>
    match metaListField ctx "opportunities" with
    | some (x :: xs) => acc ++ (x :: xs).take 2
    | _ => acc) []
  (pyDedup s1).take 5

/-- `WebsiteAnalyzer._extract_industry_benchmarks`. -/
def extract_industry_benchmarks (rag : Rag) : Dict :=
  rag.industry_context.foldl (fun acc ctx =>
    match dictGet ctx "metadata" with
    | some (.jobj md) =>
      let acc1 := match dictGet md "technologies" with
        | some v => dictSet acc "common_technologies" v
        | none => acc
      match dictGet md "pain_points" with
      | some v => dictSet acc1 "typical_pain_points" v
      | none => acc1
    | _ => acc) []

/-- `WebsiteAnalyzer._calculate_confidence_score`. -/
def calculate_confidence_score (rag : Rag) : ℚ :=
  let s1 : ℚ := if !rag.general_context.isEmpty then mkRat 3 10 else 0
  let s2 := s1 + (if pyOrStr rag.detected_industry "" != "" then mkRat 3 10 else 0)
  let s3 := s2 + (if !rag.technology_context.isEmpty then mkRat 1 5 else 0)
  let s4 := s3 + (if !rag.general_context.isEmpty then
      min ((rag.general_context.map simOfItem).sum / (rag.general_context.length : ℚ))
        (mkRat 1 5)
    else 0)
  min s4 1

/-- Optional string to a Python value (`None` when absent). -/
def optStrJ : Option String → JValue
  | some v => .jstr v
  | none => .jnull

/-- `WebsiteAnalyzer._enrich_analysis_with_rag`: add scrape metadata, RAG
insights and knowledge-base stats (`kbStats` is the oracle value of
`get_knowledge_stats`; the scraper writes no `scraped_at`, so `.get`
yields `None`). -/
def enrich_analysis (kbStats : Dict) (analysis : Dict) (s : Scraped) (rag : Rag) : Dict :=
  let d1 := dictSet analysis "url" (optStrJ s.url)
  let d2 := dictSet d1 "scraped_at" .jnull
  let d3 := dictSet d2 "page_title" (optStrJ s.title)
  let d4 := dictSet d3 "meta_description" (optStrJ s.description)
  let d5 := dictSet d4 "detected_technologies" (.jarr (s.technologies.map .jstr))
  let d6 := dictSet d5 "rag_insights" (.jobj
    [("detected_industry", optStrJ rag.detected_industry),
     ("relevant_services", .jarr (extract_relevant_services rag)),
     ("technology_opportunities", .jarr (extract_tech_opportunities rag)),
     ("industry_benchmarks", .jobj (extract_industry_benchmarks rag)),
     ("confidence_score", .jnum (calculate_confidence_score rag))])
  dictSet d6 "knowledge_base_info" (.jobj kbStats)

/-- The scraper's outcome: `WebScraper.scrape_website` catches every
exception and returns `{'error': str(e), 'url': url}`, so it never
raises. -/
inductive ScrapeOutcome where
  | fail (msg url : String)
  | ok (s : Scraped)

/-- The external effects of one `analyze_website` run: the scrape result,
the RAG analysis (whose knowledge-base/model calls may raise), the LLM
call (`analyze_website_content` returns the robust parse of the response
text, or raises — including its broken `except` branch, which hits a
NameError), and the knowledge-base stats read during enrichment. -/
structure AnalyzeOracle where
  scrape : ScrapeOutcome
  rag : Except String Rag
  llm : Except String String
  kbStats : Dict

/-- `WebsiteAnalyzer.analyze_website`: scrape, RAG analysis, LLM analysis
(robust-parsed), fallback synthesis when the parse returned `None`
(`not analysis` short-circuits before `'error' in analysis`) or the
result is empty/error-marked/incomplete, enrichment, and normalization;
every exception inside the pipeline is caught and returned as
`{'error': 'Analysis failed: ...'}`. -/
def analyze_website (o : AnalyzeOracle) : Dict :=
  match o.scrape with
  | .fail msg url => [("error", .jstr msg), ("url", .jstr url)]
  | .ok s =>
    match o.rag with
    | .error e => [("error", .jstr ("Analysis failed: " ++ e))]
    | .ok rag =>
      match o.llm with
      | .error e => [("error", .jstr ("Analysis failed: " ++ e))]
      | .ok text =>
        let analysis2 :=
          match parse_analysis_response_robust text with
          | none => generate_fallback_analysis s rag
          | some p =>
            let kvs := asDict p
            if kvs.isEmpty || dictHas kvs "error" || !(is_analysis_complete kvs)
            then generate_fallback_analysis s rag
            else kvs
        normalize_analysis (enrich_analysis o.kbStats analysis2 s rag) s rag

/-! ## `process_bulk_analyses` (app/api/bulk.py)

The per-URL loop is sequential; each iteration's outcome is the oracle
result of `analyzer.analyze_website(url)` (a raised exception, an
error-marked dict, or a success dict).  Database writes record the
per-URL status; the in-memory operation carries the counters. -/

/-- One URL's analysis outcome inside the bulk loop. -/
inductive UrlOutcome where
  | raises (msg : String)
  | errResult (msg : String)
  | ok (result : Dict)

/-- Does the outcome model a raised exception? -/
def UrlOutcome.isRaises : UrlOutcome → Bool
  | .raises _ => true
  | _ => false

/-- Does the outcome model a successful (non-error) analysis? -/
def UrlOutcome.isOk : UrlOutcome → Bool
  | .ok _ => true
  | _ => false

/-- The bulk operation's observable state: per-URL terminal statuses (in
URL order) and the tracked counters/status. -/
structure BulkState where
  statuses : List String
  completed : Nat
  failed : Nat
  job_status : String
deriving Repr

/-- One iteration of the `for i, (url, analysis_id)` loop: an error-marked
result or a raised exception marks the URL `failed` and bumps `failed`;
otherwise the URL is `completed` and `completed` is bumped. -/
def processOne (st : BulkState) (o : UrlOutcome) : BulkState :=
  match o with
  | .raises _ => { st with statuses := st.statuses ++ ["failed"], failed := st.failed + 1 }
  | .errResult _ => { st with statuses := st.statuses ++ ["failed"], failed := st.failed + 1 }
  | .ok _ => { st with statuses := st.statuses ++ ["completed"], completed := st.completed + 1 }

/-- `process_bulk_analyses`: fold the per-URL loop over the outcomes from
the registered state (`processing`, zero counters) and mark the job
`completed` at the end. -/
def process_bulk_analyses (outcomes : List UrlOutcome) : BulkState :=
  let final := outcomes.foldl processOne ⟨[], 0, 0, "processing"⟩
  { final with job_status := "completed" }

/-! ## Concrete records for counterexamples and witnesses -/

/-- A sample successful scrape. -/
def demoScraped : Scraped :=
  { url := some "https://acme.example", title := some "Acme - Home",
    description := some "Acme site", content := some "Acme makes widgets",
    technologies := ["WordPress"], contact_info := [("emails", .jarr [])] }

/-- A sample RAG-analysis record. -/
def demoRag : Rag := { detected_industry := some "technology" }

/-- A record with exactly the seven `_is_analysis_complete` fields, all
non-empty. -/
def demo7 : Dict :=
  [("company_name", .jstr "Acme"), ("industry", .jstr "Tech"),
   ("business_purpose", .jstr "Makes widgets"),
   ("pain_points", .jarr [.jstr "slow site"]),
   ("recommendations", .jarr [.jstr "speed it up"]),
   ("digital_maturity_score", .jnum 7), ("urgency_score", .jnum 6)]

/-- `demo7` extended with every other field the normalizer touches. -/
def demo10 : Dict :=
  demo7 ++
  [("company_size", .jstr "small"),
   ("technologies", .jarr [.jstr "WordPress"]),
   ("contact_info", .jobj [("emails", .jarr [.jstr "a@acme.example"])])]

/-- A structurally valid record with an out-of-range score and an
arbitrarily shaped `contact_info`. -/
def validateOkDict : Dict :=
  [("company_name", .jstr "A"), ("industry", .jstr "B"),
   ("business_purpose", .jstr "C"), ("pain_points", .jarr []),
   ("recommendations", .jarr []),
   ("digital_maturity_score", .jnum 99),
   ("contact_info", .jarr [.jnum 1, .jbool false])]

/-- A record meeting the claimed acceptance condition whose
`company_name` is a number. -/
def validateCexDict : Dict :=
  [("company_name", .jnum 3), ("industry", .jstr "x"),
   ("business_purpose", .jstr "y"), ("pain_points", .jarr []),
   ("recommendations", .jarr [])]

/-- A structurally valid LLM response whose `digital_maturity_score` lies
far outside [1, 10]. -/
def c2Input : String :=
  "\x7b\"company_name\": \"A\", \"industry\": \"B\", \"business_purpose\": \"C\", \"pain_points\": [\"p\"], \"recommendations\": [\"r\"], \"digital_maturity_score\": 99, \"urgency_score\": 5\x7d"

/-- The record that `json.loads` recovers from `c2Input`. -/
def c2Parsed : Dict :=
  [("company_name", .jstr "A"), ("industry", .jstr "B"),
   ("business_purpose", .jstr "C"), ("pain_points", .jarr [.jstr "p"]),
   ("recommendations", .jarr [.jstr "r"]),
   ("digital_maturity_score", .jnum 99), ("urgency_score", .jnum 5)]

/-- An oracle whose LLM response carries no recoverable JSON, so the
robust parser returns `None` and the pipeline synthesizes the fallback
record. -/
def demoOracleNoJson : AnalyzeOracle :=
  { scrape := .ok demoScraped, rag := .ok demoRag,
    llm := .ok "digital maturity score: 7", kbStats := [] }

end LeadGen

namespace LeadGen

/-- C7: the worked example maps to `healthcare`, and content containing no
keyword of the table yields no detected industry. -/
theorem detect_industry_spec :
    detect_industry "We provide EMR systems and HIPAA compliance for hospitals"
      = some "healthcare" ∧
    ∀ content : String,
      (industry_keywords.all
        (fun p => p.2.all (fun kw => !strContains (lowerStr content) kw))) = true →
      detect_industry content = none := by
  constructor
  · rfl
  · intro content h
    have hnone : (industry_keywords.find?
        (fun p => p.2.any (fun kw => strContains (lowerStr content) kw))) = none := by
      rw [List.find?_eq_none]
      intro p hp
      simp only [List.all_eq_true] at h
      have hall := h p hp
      simp only [List.all_eq_true] at hall
      simp only [List.any_eq_true, not_exists]
      intro kw hkw
      have hk := hall kw hkw.1
      simp only [Bool.not_eq_true'] at hk
      exact absurd hkw.2 (by simp [hk])
    simp only [detect_industry, hnone, Option.map_none']

/-- Witness for C7: both conjuncts instantiated on concrete inputs. -/
theorem detect_industry_spec_witness :
    detect_industry "We provide EMR systems and HIPAA compliance for hospitals"
      = some "healthcare" ∧
    detect_industry "zzz qqq" = none := by
  refine ⟨detect_industry_spec.1, detect_industry_spec.2 "zzz qqq" ?_⟩
  decide

/-! ### Ranking lemmas -/

theorem mem_insertIdx {key : Nat → ℚ} {a x : Nat} {l : List Nat} :
    x ∈ insertIdx key a l ↔ x = a ∨ x ∈ l := by
  induction l with
  | nil => simp [insertIdx]
  | cons b l ih =>
    simp only [insertIdx]
    by_cases h : key a ≤ key b
    · simp [h]
    · rw [if_neg h, List.mem_cons, ih, List.mem_cons]
      tauto

theorem insertIdx_perm (key : Nat → ℚ) (a : Nat) (l : List Nat) :
    (insertIdx key a l).Perm (a :: l) := by
  induction l with
  | nil => simp [insertIdx]
  | cons b l ih =>
    simp only [insertIdx]
    by_cases h : key a ≤ key b
    · simp [h]
    · rw [if_neg h]
      exact (ih.cons b).trans (List.Perm.swap a b l)

theorem isortIdx_perm (key : Nat → ℚ) (l : List Nat) :
    (isortIdx key l).Perm l := by
  induction l with
  | nil => simp [isortIdx]
  | cons a l ih => exact (insertIdx_perm key a _).trans (ih.cons a) |>.symm.symm

/-- Stability: sorting a strictly-increasing index list by key yields a list
pairwise-ordered by the lexicographic relation (key first, index second). -/
theorem insertIdx_pairwise_lex (key : Nat → ℚ) (a : Nat) (l : List Nat)
    (ha : ∀ b ∈ l, a < b)
    (hp : l.Pairwise (fun i j => key i < key j ∨ (key i = key j ∧ i < j))) :
    (insertIdx key a l).Pairwise
      (fun i j => key i < key j ∨ (key i = key j ∧ i < j)) := by
  induction l with
  | nil => simp [insertIdx]
  | cons b l ih =>
    rcases List.pairwise_cons.mp hp with ⟨hb, hp'⟩
    simp only [insertIdx]
    by_cases h : key a ≤ key b
    · rw [if_pos h]
      refine List.pairwise_cons.mpr ⟨?_, hp⟩
      intro x hx
      rcases List.mem_cons.mp hx with rfl | hxl
      · rcases lt_or_eq_of_le h with h' | h'
        · exact Or.inl h'
        · exact Or.inr ⟨h', ha x (by simp)⟩
      · have hbx := hb x hxl
        have hkbx : key b ≤ key x := by
          rcases hbx with h' | ⟨h', _⟩
          · exact le_of_lt h'
          · exact le_of_eq h'
        rcases lt_or_eq_of_le (le_trans h hkbx) with h' | h'
        · exact Or.inl h'
        · exact Or.inr ⟨h', ha x (by simp [hxl])⟩
    · rw [if_neg h]
      refine List.pairwise_cons.mpr ⟨?_, ?_⟩
      · intro y hy
        rcases mem_insertIdx.mp hy with rfl | hyl
        · exact Or.inl (lt_of_not_le h)
        · exact hb y hyl
      · exact ih (fun c hc => ha c (by simp [hc])) hp'

theorem isortIdx_pairwise_lex (key : Nat → ℚ) (l : List Nat)
    (hl : l.Pairwise (· < ·)) :
    (isortIdx key l).Pairwise
      (fun i j => key i < key j ∨ (key i = key j ∧ i < j)) := by
  induction l with
  | nil => simp [isortIdx]
  | cons a l ih =>
    rcases List.pairwise_cons.mp hl with ⟨ha, hl'⟩
    refine insertIdx_pairwise_lex key a _ ?_ (ih hl')
    intro b hb
    exact ha b (((isortIdx_perm key l).mem_iff).mp hb)

theorem argsortAsc_pairwise_lex (sims : List ℚ) :
    (argsortAsc sims).Pairwise
      (fun i j => sims.getD i 0 < sims.getD j 0 ∨
        (sims.getD i 0 = sims.getD j 0 ∧ i < j)) :=
  isortIdx_pairwise_lex _ _ (List.pairwise_lt_range _)

theorem mem_argsortAsc {sims : List ℚ} {i : Nat} :
    i ∈ argsortAsc sims ↔ i < sims.length := by
  rw [argsortAsc, (isortIdx_perm _ _).mem_iff, List.mem_range]

theorem length_argsortAsc (sims : List ℚ) :
    (argsortAsc sims).length = sims.length := by
  rw [argsortAsc, (isortIdx_perm _ _).length_eq, List.length_range]

theorem sliceFromNegEnd_sublist (k : ℤ) (l : List Nat) :
    (sliceFromNegEnd k l).Sublist l := by
  unfold sliceFromNegEnd
  split <;> exact List.drop_sublist _ _

theorem length_sliceFromNegEnd_le {k : ℤ} (hk : 0 < k) (l : List Nat) :
    (sliceFromNegEnd k l).length ≤ k.toNat := by
  rw [sliceFromNegEnd, if_pos hk, List.length_drop]
  omega

theorem sliceFromNegEnd_suffix_mono {k1 k2 : ℤ} (h1 : 0 < k1) (h12 : k1 ≤ k2)
    (l : List Nat) : (sliceFromNegEnd k1 l) <:+ (sliceFromNegEnd k2 l) := by
  rw [sliceFromNegEnd, if_pos h1, sliceFromNegEnd, if_pos (lt_of_lt_of_le h1 h12)]
  have hk : k1.toNat ≤ k2.toNat := Int.toNat_le_toNat h12
  have : l.length - k1.toNat = (l.length - k2.toNat) +
      ((l.length - k1.toNat) - (l.length - k2.toNat)) := by omega
  rw [this, ← List.drop_drop]
  exact List.drop_suffix _ _

theorem rankedIndices_pairwise (sims : List ℚ) (top_k : ℤ) :
    (rankedIndices sims top_k).Pairwise
      (fun i j => sims.getD j 0 < sims.getD i 0 ∨
        (sims.getD j 0 = sims.getD i 0 ∧ j < i)) := by
  rw [rankedIndices, List.pairwise_reverse]
  exact List.Pairwise.sublist (sliceFromNegEnd_sublist _ _) (argsortAsc_pairwise_lex sims)

theorem mem_rankedIndices_lt {sims : List ℚ} {top_k : ℤ} {i : Nat}
    (h : i ∈ rankedIndices sims top_k) : i < sims.length := by
  rw [rankedIndices, List.mem_reverse] at h
  exact mem_argsortAsc.mp ((sliceFromNegEnd_sublist _ _).subset h)

theorem length_rankedIndices_le {sims : List ℚ} {top_k : ℤ} (hk : 0 < top_k) :
    (rankedIndices sims top_k).length ≤ top_k.toNat := by
  rw [rankedIndices, List.length_reverse]
  exact length_sliceFromNegEnd_le hk _

theorem mem_rankedIndices_mono {sims : List ℚ} {k1 k2 : ℤ} (h1 : 0 < k1)
    (h12 : k1 ≤ k2) {i : Nat} (h : i ∈ rankedIndices sims k1) :
    i ∈ rankedIndices sims k2 := by
  rw [rankedIndices, List.mem_reverse] at h ⊢
  exact ((sliceFromNegEnd_suffix_mono h1 h12 _).sublist).subset h

theorem simOfItem_buildContextItem (it : KItem) (q : ℚ) :
    simOfItem (buildContextItem it q) = q := by
  cases h : it.metadata <;> simp [buildContextItem, h, simOfItem, dictGet]

/-- Shared helper: every context item returned by `get_relevant_context`
has similarity strictly above the threshold. -/
theorem grc_sim_gt_threshold (kd : List KItem) (hasEmb : Bool) (sims : List ℚ)
    (top_k : ℤ) (threshold : ℚ) :
    ∀ d ∈ get_relevant_context kd hasEmb sims top_k threshold,
      threshold < simOfItem d := by
  intro d hd
  unfold get_relevant_context at hd
  split at hd
  · simp at hd
  · rcases List.mem_map.mp hd with ⟨i, hi, rfl⟩
    rcases List.mem_filter.mp hi with ⟨-, hgt⟩
    rw [simOfItem_buildContextItem]
    exact of_decide_eq_true hgt

/-- C4 (amended): for `top_k ≥ 1`, `get_relevant_context` returns at most
`top_k` items; every returned item has similarity strictly above the
threshold; the result is sorted descending by similarity; and when no
similarity clears the threshold the result is the empty list (not an
error).  (For `top_k = 0` the slice `[-0:]` selects every index, so the
length bound fails — see the counterexample.) -/
theorem get_relevant_context_spec (kd : List KItem) (hasEmb : Bool)
    (sims : List ℚ) (top_k : ℤ) (threshold : ℚ) :
    (1 ≤ top_k →
      (get_relevant_context kd hasEmb sims top_k threshold).length ≤ top_k.toNat) ∧
    (∀ d ∈ get_relevant_context kd hasEmb sims top_k threshold,
      threshold < simOfItem d) ∧
    (get_relevant_context kd hasEmb sims top_k threshold).Pairwise
      (fun a b => simOfItem b ≤ simOfItem a) ∧
    ((∀ q ∈ sims, q ≤ threshold) →
      get_relevant_context kd hasEmb sims top_k threshold = []) := by
  refine ⟨?_, grc_sim_gt_threshold kd hasEmb sims top_k threshold, ?_, ?_⟩
  · intro hk
    unfold get_relevant_context
    split
    · simp
    · rw [List.length_map]
      exact le_trans (List.length_filter_le _ _) (length_rankedIndices_le hk)
  · unfold get_relevant_context
    split
    · simp
    · rw [List.pairwise_map]
      refine List.Pairwise.imp ?_
        (List.Pairwise.sublist (List.filter_sublist _) (rankedIndices_pairwise sims top_k))
      intro i j hij
      rw [simOfItem_buildContextItem, simOfItem_buildContextItem]
      rcases hij with h | ⟨h, -⟩
      · exact le_of_lt h
      · exact le_of_eq h
  · intro h
    unfold get_relevant_context
    split
    · rfl
    · rw [List.filter_eq_nil_iff.mpr, List.map_nil]
      intro i hi
      have hlt := mem_rankedIndices_lt hi
      have hmem : sims.getD i 0 ∈ sims := by
        rw [List.getD_eq_getElem sims 0 hlt]
        exact List.getElem_mem hlt
      simpa using not_lt_of_le (h _ hmem)

/-- Witness for C4: the bound, and the empty result, on concrete inputs. -/
theorem get_relevant_context_spec_witness :
    ((1:ℤ) ≤ 1 ∧
      (get_relevant_context demoKD true demoSims 1 (mkRat 3 10)).length ≤ (1:ℤ).toNat) ∧
    ((∀ q ∈ demoSims, q ≤ (2:ℚ)) ∧
      get_relevant_context demoKD true demoSims 5 2 = []) := by
  refine ⟨⟨by decide, (get_relevant_context_spec demoKD true demoSims 1 (mkRat 3 10)).1 (by decide)⟩,
    ⟨by decide, (get_relevant_context_spec demoKD true demoSims 5 2).2.2.2 (by decide)⟩⟩

/-- C4 counterexample: with `top_k = 0` the claim's "at most `top_k`
items" fails — one above-threshold item is returned. -/
theorem get_relevant_context_topk_zero_cex :
    ¬ ((get_relevant_context demoKD true demoSims 0 (mkRat 3 10)).length
        ≤ (0:ℤ).toNat) := by
  decide

/-- C5 (amended): for `1 ≤ k1 ≤ k2`, every item returned with `top_k = k1`
is also returned with `top_k = k2`, and no call (any `top_k`) ever returns
an item with similarity ≤ threshold.  (For `k1 = 0` the monotonicity
fails — see the counterexample.) -/
theorem get_relevant_context_monotone (kd : List KItem) (hasEmb : Bool)
    (sims : List ℚ) (threshold : ℚ) (k1 k2 : ℤ) (h1 : 1 ≤ k1) (h12 : k1 ≤ k2) :
    (∀ d ∈ get_relevant_context kd hasEmb sims k1 threshold,
       d ∈ get_relevant_context kd hasEmb sims k2 threshold) ∧
    (∀ k : ℤ, ∀ d ∈ get_relevant_context kd hasEmb sims k threshold,
       ¬ (simOfItem d ≤ threshold)) := by
  constructor
  · intro d hd
    unfold get_relevant_context at hd ⊢
    split at hd
    · simp at hd
    · rw [if_neg (by assumption)]
      rcases List.mem_map.mp hd with ⟨i, hi, rfl⟩
      rcases List.mem_filter.mp hi with ⟨hmem, hgt⟩
      exact List.mem_map_of_mem _
        (List.mem_filter.mpr ⟨mem_rankedIndices_mono h1 h12 hmem, hgt⟩)
  · intro k d hd
    exact not_le_of_lt (grc_sim_gt_threshold kd hasEmb sims k threshold d hd)

/-- Witness for C5: monotonicity instantiated at `k1 = 1 ≤ k2 = 2`. -/
theorem get_relevant_context_monotone_witness :
    buildContextItem demoItem (mkRat 9 10)
      ∈ get_relevant_context demoKD true demoSims 2 (mkRat 3 10) := by
  refine (get_relevant_context_monotone demoKD true demoSims (mkRat 3 10) 1 2
    (by decide) (by decide)).1 _ ?_
  rw [show get_relevant_context demoKD true demoSims 1 (mkRat 3 10)
      = [buildContextItem demoItem (mkRat 9 10)] from rfl]
  simp

/-- C5 counterexample: with `k1 = 0 < k2 = 1` the second-ranked item is
returned for `k1` but not for `k2`, so increasing `top_k` from 0 removes a
previously-returned item. -/
theorem get_relevant_context_monotone_cex :
    (0:ℤ) < 1 ∧
    buildContextItem demoItem2 (mkRat 4 5)
      ∈ get_relevant_context demoKD true demoSims 0 (mkRat 3 10) ∧
    buildContextItem demoItem2 (mkRat 4 5)
      ∉ get_relevant_context demoKD true demoSims 1 (mkRat 3 10) := by
  refine ⟨by decide, ?_, ?_⟩
  · rw [show get_relevant_context demoKD true demoSims 0 (mkRat 3 10)
        = [buildContextItem demoItem (mkRat 9 10),
           buildContextItem demoItem2 (mkRat 4 5)] from rfl]
    simp
  · intro hmem
    have h2 := List.mem_map_of_mem simOfItem hmem
    rw [show (get_relevant_context demoKD true demoSims 1 (mkRat 3 10)).map simOfItem
        = [mkRat 9 10] from rfl,
      show simOfItem (buildContextItem demoItem2 (mkRat 4 5)) = mkRat 4 5 from rfl] at h2
    exact absurd h2 (by decide)

/-- C6 (amended): `find_most_similar` returns `(index, score)` pairs in
descending score order, each score being the similarity at its index; but
ties are broken by *descending* original index (the ascending argsort is
reversed), not ascending. -/
theorem find_most_similar_spec (sims : List ℚ) (top_k : ℤ) :
    ((find_most_similar sims top_k).Pairwise
      (fun a b => b.2 < a.2 ∨ (b.2 = a.2 ∧ b.1 < a.1))) ∧
    (∀ p ∈ find_most_similar sims top_k,
      p.1 < sims.length ∧ p.2 = sims.getD p.1 0) := by
  constructor
  · rw [find_most_similar, List.pairwise_map]
    exact List.Pairwise.imp (fun h => h) (rankedIndices_pairwise sims top_k)
  · intro p hp
    rcases List.mem_map.mp hp with ⟨i, hi, rfl⟩
    exact ⟨mem_rankedIndices_lt hi, rfl⟩

/-- C6 counterexample: two candidates with equal similarity come back with
the *larger* original index first, refuting the ascending tie-break. -/
theorem find_most_similar_tie_cex :
    ¬ ((find_most_similar [(1:ℚ), 1] 2).Pairwise
      (fun a b => a.2 = b.2 → a.1 < b.1)) := by
  decide

/-! ### Dict lemmas -/

theorem dictGet_cons (a : String) (b : JValue) (t : Dict) (k : String) :
    dictGet ((a, b) :: t) k = if a == k then some b else dictGet t k := by
  unfold dictGet
  by_cases h : a == k <;> simp [List.find?, h]

theorem dictGet_dictSet_self (d : Dict) (k : String) (v : JValue) :
    dictGet (dictSet d k v) k = some v := by
  induction d with
  | nil => simp [dictSet, dictGet, List.find?]
  | cons kv rest ih =>
    obtain ⟨a, b⟩ := kv
    simp only [dictSet]
    by_cases h : a == k
    · rw [if_pos h, dictGet_cons, if_pos h]
    · rw [if_neg h, dictGet_cons, if_neg h]
      exact ih

theorem dictGet_dictSet_ne {k' k : String} (h : k' ≠ k) (d : Dict) (v : JValue) :
    dictGet (dictSet d k v) k' = dictGet d k' := by
  induction d with
  | nil =>
    simp only [dictSet, dictGet_cons]
    rw [if_neg (by simpa using fun hk => h hk.symm)]
  | cons kv rest ih =>
    obtain ⟨a, b⟩ := kv
    simp only [dictSet]
    by_cases hak : a == k
    · rw [if_pos hak, dictGet_cons, dictGet_cons]
      have hf : (a == k') = false := by
        have : a = k := by simpa using hak
        subst this
        simpa using fun hk => h hk.symm
      rw [hf]
      simp
    · rw [if_neg hak, dictGet_cons, dictGet_cons, ih]

theorem dictHas_dictSet_of {d : Dict} {f : String} (k : String) (v : JValue)
    (h : dictHas d f = true) : dictHas (dictSet d k v) f = true := by
  by_cases hk : f = k
  · subst hk
    simp [dictHas, dictGet_dictSet_self]
  · unfold dictHas at h ⊢
    rw [dictGet_dictSet_ne hk]
    exact h

theorem ensureKey_of_filled {d : Dict} {k : String} (dflt : JValue)
    (h : filledKey d k = true) : ensureKey d k dflt = d := by
  unfold filledKey at h
  unfold ensureKey
  cases hg : dictGet d k with
  | none => rw [hg] at h; simp at h
  | some v =>
    rw [hg] at h
    simp only [Bool.not_eq_true'] at h
    simp [h]

theorem dictGet_ensureKey_ne {k' k : String} (h : k' ≠ k) (d : Dict) (dflt : JValue) :
    dictGet (ensureKey d k dflt) k' = dictGet d k' := by
  unfold ensureKey
  split
  · exact dictGet_dictSet_ne h d dflt
  · rfl

/-! ### C3: normalization of a complete record -/

/-- C3 (amended): a record in which every field the normalizer touches —
the seven completeness fields plus `company_size` and `contact_info`
present and non-empty, and `technologies` truthy — is returned unchanged
by `_normalize_analysis`, for any scraped data and RAG context.  (A
record that is merely complete in the `_is_analysis_complete` sense still
gains `company_size`, `technologies` and `contact_info` — see the
counterexample.) -/
theorem normalize_complete_noop (analysis : Dict) (s : Scraped) (r : Rag)
    (h : (analyzer_required_fields ++ ["company_size", "contact_info"]).all
      (fun f => filledKey analysis f) = true)
    (ht : truthy ((dictGet analysis "technologies").getD .jnull) = true) :
    normalize_analysis analysis s r = analysis := by
  have h' := List.all_eq_true.mp h
  have hcn := h' "company_name" (by decide)
  have hin := h' "industry" (by decide)
  have hdm := h' "digital_maturity_score" (by decide)
  have hug := h' "urgency_score" (by decide)
  have hbp := h' "business_purpose" (by decide)
  have hcs := h' "company_size" (by decide)
  have hci := h' "contact_info" (by decide)
  have hpp := h' "pain_points" (by decide)
  have hrc := h' "recommendations" (by decide)
  unfold normalize_analysis
  simp only
  rw [ensureKey_of_filled _ hcn, ensureKey_of_filled _ hin, ensureKey_of_filled _ hdm,
    ensureKey_of_filled _ hug, ensureKey_of_filled _ hbp, ensureKey_of_filled _ hcs,
    if_neg (by simp [ht]), ensureKey_of_filled _ hci, ensureKey_of_filled _ hpp,
    ensureKey_of_filled _ hrc]

/-- A complete-but-minimal record: exactly the seven
`_is_analysis_complete` fields, all non-empty. -/
theorem normalize_complete_noop_cex :
    is_analysis_complete demo7 = true ∧
    dictGet demo7 "company_size" = none ∧
    dictGet (normalize_analysis demo7 demoScraped demoRag) "company_size"
      = some (.jstr "unknown") := by
  refine ⟨by decide, by rfl, by rfl⟩

/-- Witness for C3 on a record carrying every touched field. -/
theorem normalize_complete_noop_witness :
    normalize_analysis demo10 demoScraped demoRag = demo10 :=
  normalize_complete_noop demo10 demoScraped demoRag (by decide) (by decide)

/-! ### C8: bulk isolation -/

theorem processBulk_invariant (outcomes : List UrlOutcome) (st : BulkState) :
    (outcomes.foldl processOne st).statuses
      = st.statuses ++ outcomes.map (fun o => if o.isOk then "completed" else "failed") ∧
    (outcomes.foldl processOne st).completed
      = st.completed + (outcomes.filter (·.isOk)).length ∧
    (outcomes.foldl processOne st).failed
      = st.failed + (outcomes.filter (fun o => !o.isOk)).length ∧
    (outcomes.foldl processOne st).job_status = st.job_status := by
  induction outcomes generalizing st with
  | nil => simp
  | cons o os ih =>
    obtain ⟨ih1, ih2, ih3, ih4⟩ := ih (processOne st o)
    rw [List.foldl_cons] at *
    refine ⟨?_, ?_, ?_, ?_⟩
    · rw [ih1]
      cases o <;> simp [processOne, UrlOutcome.isOk]
    · rw [ih2]
      cases o <;> simp [processOne, UrlOutcome.isOk, List.filter_cons]
      all_goals omega
    · rw [ih3]
      cases o <;> simp [processOne, UrlOutcome.isOk, List.filter_cons]
      all_goals omega
    · rw [ih4]
      cases o <;> simp [processOne]

theorem length_filter_isOk_add (l : List UrlOutcome) :
    (l.filter (·.isOk)).length + (l.filter (fun o => !o.isOk)).length = l.length := by
  induction l with
  | nil => rfl
  | cons o os ih =>
    cases h : o.isOk <;> simp [List.filter_cons, h] <;> omega

/-- C8: when exactly one URL's analysis raises and every other URL
succeeds, the job terminates `completed` with `failed = 1` and
`completed = N - 1`, and every per-URL record carries a terminal
status. -/
theorem bulk_isolation (outcomes : List UrlOutcome)
    (h1 : (outcomes.filter (·.isRaises)).length = 1)
    (h2 : ∀ o ∈ outcomes, o.isRaises = true ∨ o.isOk = true) :
    (process_bulk_analyses outcomes).job_status = "completed" ∧
    (process_bulk_analyses outcomes).failed = 1 ∧
    (process_bulk_analyses outcomes).completed = outcomes.length - 1 ∧
    (process_bulk_analyses outcomes).statuses.length = outcomes.length ∧
    ∀ stt ∈ (process_bulk_analyses outcomes).statuses,
      stt = "completed" ∨ stt = "failed" := by
  obtain ⟨hs, hc, hf, -⟩ := processBulk_invariant outcomes ⟨[], 0, 0, "processing"⟩
  have hfilters : outcomes.filter (fun o => !o.isOk) = outcomes.filter (·.isRaises) := by
    apply List.filter_congr
    intro o ho
    rcases h2 o ho with hr | hk
    · cases o <;> simp_all [UrlOutcome.isOk, UrlOutcome.isRaises]
    · cases o <;> simp_all [UrlOutcome.isOk, UrlOutcome.isRaises]
  have hsum := length_filter_isOk_add outcomes
  have hst : (process_bulk_analyses outcomes).statuses
      = (outcomes.foldl processOne ⟨[], 0, 0, "processing"⟩).statuses := rfl
  have hco : (process_bulk_analyses outcomes).completed
      = (outcomes.foldl processOne ⟨[], 0, 0, "processing"⟩).completed := rfl
  have hfa : (process_bulk_analyses outcomes).failed
      = (outcomes.foldl processOne ⟨[], 0, 0, "processing"⟩).failed := rfl
  refine ⟨rfl, ?_, ?_, ?_, ?_⟩
  · rw [hfa, hf, hfilters, h1]
  · rw [hco, hc]
    rw [hfilters, h1] at hsum
    simp only at hsum ⊢
    omega
  · rw [hst, hs]
    simp
  · intro stt hstt
    rw [hst, hs] at hstt
    simp only [List.nil_append, List.mem_map] at hstt
    obtain ⟨o, -, rfl⟩ := hstt
    by_cases h : o.isOk <;> simp [h]

/-! ### C1/C9: the robust parser and its validator -/

/-- C1 (code bug): the structured-text fallback was meant to be the
terminal, always-succeeding strategy, but the staged
`_extract_from_structured_text` ends at a bare `logger` expression with
no `return result` (the stranded `return result` sits at
gemini_client.py:31–32), so on any input whose JSON strategies fail —
here the empty string — the fallback and hence
`_parse_analysis_response_robust` return `None`, not a record. -/
theorem parse_robust_none_on_fallback :
    extract_from_structured_text "" = none ∧
    parse_analysis_response_robust "" = none :=
  ⟨rfl, rfl⟩

/-- C9 (amended): on a parsed object whose `company_name` (when all keys
are present) is a string, the validator accepts exactly when the five
required keys are present and `pain_points`/`recommendations` are lists;
it inspects neither scores nor `contact_info`.  A present non-string
`company_name` instead raises AttributeError at `.strip()` — see the
counterexample. -/
theorem validate_structure_spec (kvs : Dict) :
    validate_analysis_structure (.jobj kvs) = .ok true ↔
      (required_fields.all (fun f => dictHas kvs f) = true ∧
       isArrVal ((dictGet kvs "pain_points").getD .jnull) = true ∧
       isArrVal ((dictGet kvs "recommendations").getD .jnull) = true ∧
       (∀ v, dictGet kvs "company_name" = some v → isStrVal v = true)) := by
  rw [validate_analysis_structure]
  constructor
  · intro h
    split at h
    · exact absurd h (by simp)
    · split at h
      · exact absurd h (by simp)
      · split at h
        · exact absurd h (by simp)
        · rename_i h1 h2 h3
          refine ⟨by simpa using h1, by simpa using h2, by simpa using h3, ?_⟩
          intro v hv
          rw [hv] at h
          cases v with
          | jstr s => rfl
          | jnull => exact absurd h (by simp)
          | jbool b => exact absurd h (by simp)
          | jnum q => exact absurd h (by simp)
          | jarr xs => exact absurd h (by simp)
          | jobj o => exact absurd h (by simp)
  · rintro ⟨h1, h2, h3, h4⟩
    rw [if_neg (by simp [h1]), if_neg (by simp [h2]), if_neg (by simp [h3])]
    cases hg : dictGet kvs "company_name" with
    | none => rfl
    | some w =>
      have hw := h4 w hg
      cases w <;> simp [isStrVal] at hw ⊢

/-- Witness for C9: a record with an out-of-range score and an arbitrary
`contact_info` is accepted, since neither is checked. -/
theorem validate_structure_spec_witness :
    validate_analysis_structure (.jobj validateOkDict) = .ok true := by
  refine (validate_structure_spec validateOkDict).mpr ⟨by decide, by decide, by decide, ?_⟩
  intro v hv
  rw [show dictGet validateOkDict "company_name" = some (JValue.jstr "A") from rfl] at hv
  cases hv
  rfl

/-- C9 counterexample: all five keys present and both lists are lists, yet
the validator does not accept — `company_name` is a number, so
`.strip()` raises AttributeError. -/
theorem validate_structure_cex :
    (required_fields.all (fun f => dictHas validateCexDict f) = true ∧
     isArrVal ((dictGet validateCexDict "pain_points").getD .jnull) = true ∧
     isArrVal ((dictGet validateCexDict "recommendations").getD .jnull) = true) ∧
    validate_analysis_structure (.jobj validateCexDict) = .error () := by
  exact ⟨⟨by decide, by decide, by decide⟩, by rfl⟩

/-- Witness for C8: three URLs, the middle one raising. -/
theorem bulk_isolation_witness :
    (process_bulk_analyses
      [UrlOutcome.ok demo7, UrlOutcome.raises "boom", UrlOutcome.ok demo7]).job_status
        = "completed" ∧
    (process_bulk_analyses
      [UrlOutcome.ok demo7, UrlOutcome.raises "boom", UrlOutcome.ok demo7]).failed = 1 ∧
    (process_bulk_analyses
      [UrlOutcome.ok demo7, UrlOutcome.raises "boom", UrlOutcome.ok demo7]).completed = 2 := by
  have h := bulk_isolation
    [UrlOutcome.ok demo7, UrlOutcome.raises "boom", UrlOutcome.ok demo7]
    (by decide) (by decide)
  exact ⟨h.1, h.2.1, by simpa using h.2.2.1⟩

/-! ### C2: pipeline scores -/

theorem dictGet_ite_dictSet_ne {k' k : String} (h : k' ≠ k) (c : Prop)
    [Decidable c] (d : Dict) (v : JValue) :
    dictGet (if c then dictSet d k v else d) k' = dictGet d k' := by
  split
  · exact dictGet_dictSet_ne h d v
  · rfl

/-- Normalization preserves a present numeric score. -/
theorem normalize_preserves_score {d : Dict} {k : String} {q : ℚ}
    (hk : k = "digital_maturity_score" ∨ k = "urgency_score")
    (h : dictGet d k = some (.jnum q)) (s : Scraped) (r : Rag) :
    dictGet (normalize_analysis d s r) k = some (.jnum q) := by
  unfold normalize_analysis
  simp only
  rcases hk with rfl | rfl
  · rw [dictGet_ensureKey_ne (by decide), dictGet_ensureKey_ne (by decide),
      dictGet_ensureKey_ne (by decide), dictGet_ite_dictSet_ne (by decide),
      dictGet_ensureKey_ne (by decide), dictGet_ensureKey_ne (by decide),
      dictGet_ensureKey_ne (by decide)]
    have h2 : dictGet (ensureKey (ensureKey d "company_name" (.jstr (companyGuess s)))
        "industry" (.jstr (pyOrStr r.detected_industry "Unknown")))
        "digital_maturity_score" = some (.jnum q) := by
      rw [dictGet_ensureKey_ne (by decide), dictGet_ensureKey_ne (by decide)]
      exact h
    rw [ensureKey_of_filled _ (by unfold filledKey; rw [h2]; rfl)]
    exact h2
  · rw [dictGet_ensureKey_ne (by decide), dictGet_ensureKey_ne (by decide),
      dictGet_ensureKey_ne (by decide), dictGet_ite_dictSet_ne (by decide),
      dictGet_ensureKey_ne (by decide), dictGet_ensureKey_ne (by decide)]
    have h3 : dictGet (ensureKey (ensureKey (ensureKey d "company_name"
        (.jstr (companyGuess s))) "industry" (.jstr (pyOrStr r.detected_industry "Unknown")))
        "digital_maturity_score" (.jnum 5)) "urgency_score" = some (.jnum q) := by
      rw [dictGet_ensureKey_ne (by decide), dictGet_ensureKey_ne (by decide),
        dictGet_ensureKey_ne (by decide)]
      exact h
    rw [ensureKey_of_filled _ (by unfold filledKey; rw [h3]; rfl)]
    exact h3

/-- The fallback synthesizer sets both scores to exactly 5.0 (value
fields of the literal record are never consulted by the key lookup). -/
theorem fallback_analysis_dm (s : Scraped) (r : Rag) :
    dictGet (generate_fallback_analysis s r) "digital_maturity_score"
      = some (.jnum 5) := rfl

theorem fallback_analysis_urg (s : Scraped) (r : Rag) :
    dictGet (generate_fallback_analysis s r) "urgency_score"
      = some (.jnum 5) := rfl

/-- Enrichment writes no score key, so both scores pass through it. -/
theorem dictGet_enrich_score (kb : Dict) (a : Dict) (s : Scraped) (r : Rag)
    {k : String} (hk : k = "digital_maturity_score" ∨ k = "urgency_score") :
    dictGet (enrich_analysis kb a s r) k = dictGet a k := by
  unfold enrich_analysis
  simp only
  rcases hk with rfl | rfl <;>
    rw [dictGet_dictSet_ne (by decide), dictGet_dictSet_ne (by decide),
      dictGet_dictSet_ne (by decide), dictGet_dictSet_ne (by decide),
      dictGet_dictSet_ne (by decide), dictGet_dictSet_ne (by decide),
      dictGet_dictSet_ne (by decide)]

/-- C2 (amended): when the LLM response yields no structurally valid JSON
— the robust parser returns `None`, since the structured-text fallback's
regex-recovered scores are discarded by its missing `return` — the
pipeline synthesizes the fallback record, and the final normalized
scores are exactly 5.0, hence within [1, 10].  (Scores arriving through
a structurally valid JSON parse are *not* clamped — see the
counterexample.) -/
theorem pipeline_scores_spec (o : AnalyzeOracle) (s : Scraped) (r : Rag)
    (text : String) (hs : o.scrape = .ok s) (hr : o.rag = .ok r)
    (hl : o.llm = .ok text)
    (hp : parse_analysis_response_robust text = none) :
    dictGet (analyze_website o) "digital_maturity_score" = some (.jnum 5) ∧
    dictGet (analyze_website o) "urgency_score" = some (.jnum 5) ∧
    (1:ℚ) ≤ 5 ∧ (5:ℚ) ≤ 10 := by
  have key : analyze_website o
      = normalize_analysis
          (enrich_analysis o.kbStats (generate_fallback_analysis s r) s r) s r := by
    unfold analyze_website
    rw [hs, hr, hl]
    simp only
    rw [hp]
  rw [key]
  refine ⟨?_, ?_, by norm_num, by norm_num⟩
  · refine normalize_preserves_score (Or.inl rfl) ?_ s r
    rw [dictGet_enrich_score o.kbStats _ s r (Or.inl rfl)]
    exact fallback_analysis_dm s r
  · refine normalize_preserves_score (Or.inr rfl) ?_ s r
    rw [dictGet_enrich_score o.kbStats _ s r (Or.inr rfl)]
    exact fallback_analysis_urg s r

set_option maxRecDepth 16000 in
/-- Witness for C2: a response carrying an in-range score label but no
JSON; the recovered 7 is discarded and the pipeline ends at 5.0. -/
theorem pipeline_scores_spec_witness :
    dictGet (analyze_website demoOracleNoJson) "digital_maturity_score"
      = some (.jnum 5) ∧
    dictGet (analyze_website demoOracleNoJson) "urgency_score"
      = some (.jnum 5) := by
  have h := pipeline_scores_spec demoOracleNoJson demoScraped demoRag
    "digital maturity score: 7" rfl rfl rfl (by rfl)
  exact ⟨h.1, h.2.1⟩

set_option maxRecDepth 16000 in
/-- C2 counterexample: a structurally valid JSON response with
`digital_maturity_score = 99` passes parsing, counts as complete, and
flows through normalization unclamped — the claimed [1, 10] bound fails
on the parsed-JSON path. -/
theorem score_clamp_cex :
    parse_analysis_response_robust c2Input = some (.jobj c2Parsed) ∧
    is_analysis_complete c2Parsed = true ∧
    dictGet (normalize_analysis c2Parsed demoScraped demoRag)
      "digital_maturity_score" = some (.jnum 99) ∧
    ¬ ((1:ℚ) ≤ 99 ∧ (99:ℚ) ≤ 10) := by
  refine ⟨by rfl, by rfl, by rfl, by decide⟩

/-! ### C10: totality of the single-URL pipeline -/

/-- C10: `analyze_website` always returns a dict: the scraper's error
record verbatim when the scrape failed, an `'Analysis failed: ...'` error
dict when the RAG step or the LLM call raised (no synthesis or
normalization output on either error branch), and otherwise the
normalized, enriched analysis. -/
theorem analyze_website_spec (o : AnalyzeOracle) :
    (∃ msg url, o.scrape = .fail msg url ∧
      analyze_website o = [("error", .jstr msg), ("url", .jstr url)]) ∨
    (∃ e, analyze_website o = [("error", .jstr ("Analysis failed: " ++ e))]) ∨
    (∃ s r a, o.scrape = .ok s ∧ o.rag = .ok r ∧
      analyze_website o = normalize_analysis (enrich_analysis o.kbStats a s r) s r) := by
  unfold analyze_website
  cases hs : o.scrape with
  | fail msg url => exact Or.inl ⟨msg, url, rfl, rfl⟩
  | ok s =>
    cases hr : o.rag with
    | error e => exact Or.inr (Or.inl ⟨e, rfl⟩)
    | ok r =>
      cases hl : o.llm with
      | error e => exact Or.inr (Or.inl ⟨e, rfl⟩)
      | ok text => exact Or.inr (Or.inr ⟨s, r, _, rfl, rfl, rfl⟩)

end LeadGen
